import Mathlib

/-!
Verification of the query-execution core of `src/query/weight.rs`: the three
generic traversal loops (`for_each_scorer`, `for_each_docset`,
`for_each_pruning_scorer`) and the default methods of the `Weight` trait
(`count`, `for_each`, `for_each_no_score`, `for_each_pruning`).

Modelling choices, stated once:
* `DocId` (`u32` in the source) is `Nat`; the sentinel `TERMINATED` keeps its
  concrete value `u32::MAX`.
* `Score` (`f32` in the source) is `ℚ`; the traversal code only reads, copies
  and order-compares scores, so an ordered field with decidable order is a
  faithful carrier.
* A cursor (`dyn Scorer` / `dyn DocSet`) is a state `s : σ` together with a
  record of operations `doc`, `advance`, `score` on `σ`, mirroring the trait
  methods; `advance` both mutates and yields, so the Rust
  `doc = scorer.advance()` becomes reading `doc` after stepping the state.
* A Rust `FnMut` callback is a state-passing function; a traversal returns the
  trace of its callback invocations (and for the pruning loop also the final
  callback state and threshold), which determines the behaviour of any stateful
  callback by folding.
* The `while doc != TERMINATED` loops run on explicit fuel: `fuel` bounds the
  number of iterations, and under the cursor contract the result is shown to be
  independent of the fuel once the fuel reaches the cursor's termination point.
-/

namespace Tantivy

/-- Document identifier within a segment (`DocId = u32` in the source). -/
abbrev DocId := Nat

/-- Relevance score (`Score = f32` in the source); carried here by `ℚ`. -/
abbrev Score := ℚ

/-- Modelled from the spec: the reserved sentinel `TERMINATED` denoting "no more
matches", strictly greater than any real identifier; its definition
(`u32::MAX`) lives outside the provided sources. -/
def TERMINATED : DocId := 4294967295

/-- The `DocSet` capability: a forward-only cursor with a current document and
an `advance` step, over cursor states `σ`. -/
structure DocSetOps (σ : Type) where
  doc : σ → DocId
  advance : σ → σ

/-- The `Scorer` capability: a `DocSet` that additionally reports the score of
the current document. -/
structure ScorerOps (σ : Type) extends DocSetOps σ where
  score : σ → Score

/-- The document under the cursor after `n` calls to `advance`. -/
def DocSetOps.docAt {σ : Type} (ops : DocSetOps σ) (s : σ) (n : Nat) : DocId :=
  ops.doc (ops.advance^[n] s)

/-- `docAt` for a scoring cursor. -/
def ScorerOps.docAt {σ : Type} (ops : ScorerOps σ) (s : σ) (n : Nat) : DocId :=
  ops.toDocSetOps.docAt s n

/-- The score reported after `n` calls to `advance`. -/
def ScorerOps.scoreAt {σ : Type} (ops : ScorerOps σ) (s : σ) (n : Nat) : Score :=
  ops.score (ops.toDocSetOps.advance^[n] s)

@[simp] theorem DocSetOps.docAt_zero {σ : Type} (ops : DocSetOps σ) (s : σ) :
    ops.docAt s 0 = ops.doc s := rfl

@[simp] theorem DocSetOps.docAt_advance {σ : Type} (ops : DocSetOps σ) (s : σ) (n : Nat) :
    ops.docAt (ops.advance s) n = ops.docAt s (n + 1) := by
  simp [DocSetOps.docAt, Function.iterate_succ_apply]

@[simp] theorem ScorerOps.docAt_eq_doc {σ : Type} (ops : ScorerOps σ) (s : σ) :
    ops.docAt s 0 = ops.toDocSetOps.doc s := rfl

@[simp] theorem ScorerOps.docAt_step {σ : Type} (ops : ScorerOps σ) (s : σ) (n : Nat) :
    ops.docAt (ops.toDocSetOps.advance s) n = ops.docAt s (n + 1) := by
  simp [ScorerOps.docAt]

@[simp] theorem ScorerOps.scoreAt_zero {σ : Type} (ops : ScorerOps σ) (s : σ) :
    ops.scoreAt s 0 = ops.score s := rfl

@[simp] theorem ScorerOps.scoreAt_advance {σ : Type} (ops : ScorerOps σ) (s : σ) (n : Nat) :
    ops.scoreAt (ops.toDocSetOps.advance s) n = ops.scoreAt s (n + 1) := by
  simp [ScorerOps.scoreAt, Function.iterate_succ_apply]

/-- The cursor contract (spec §3/§4.1): from the current state, the documents
observed through repeated `advance` are strictly increasing while real, never
exceed the sentinel, reach the sentinel after finitely many steps, and the
sentinel is sticky. -/
structure CursorContract {σ : Type} (ops : DocSetOps σ) (s : σ) : Prop where
  increasing : ∀ n, ops.docAt s n ≠ TERMINATED → ops.docAt s n < ops.docAt s (n + 1)
  le_terminated : ∀ n, ops.docAt s n ≤ TERMINATED
  reaches : ∃ n, ops.docAt s n = TERMINATED
  sticky : ∀ n, ops.docAt s n = TERMINATED → ops.docAt s (n + 1) = TERMINATED

/-- `for_each_scorer` (src/query/weight.rs:8-17): starting from the cursor's
current document, invoke `callback(doc, score)` then advance, until
`TERMINATED`. The returned list is the trace of callback invocations; `fuel`
bounds the number of loop iterations. -/
def for_each_scorer {σ : Type} (ops : ScorerOps σ) (fuel : Nat) (s : σ) :
    List (DocId × Score) :=
  match fuel with
  | 0 => []
  | fuel + 1 =>
    if ops.toDocSetOps.doc s = TERMINATED then []
    else (ops.toDocSetOps.doc s, ops.score s) ::
      for_each_scorer ops fuel (ops.toDocSetOps.advance s)

/-- `for_each_docset` (src/query/weight.rs:21-27): the identical walk invoking
`callback(doc)` only; it consumes only the `DocSet` capability, so no score
function is even in scope. -/
def for_each_docset {σ : Type} (ops : DocSetOps σ) (fuel : Nat) (s : σ) : List DocId :=
  match fuel with
  | 0 => []
  | fuel + 1 =>
    if ops.doc s = TERMINATED then []
    else ops.doc s :: for_each_docset ops fuel (ops.advance s)

/-- `for_each_pruning_scorer` (src/query/weight.rs:39-52): at each document
compute the score; when `score > threshold` fire the callback and replace the
threshold by its returned value; advance regardless. The callback is a
state-passing rendering of the Rust `FnMut(DocId, Score) -> Score`; the result
is the final callback state, the final threshold, and the trace of callback
invocations. -/
def for_each_pruning_scorer {σ α : Type} (ops : ScorerOps σ)
    (cb : α → DocId → Score → α × Score) (fuel : Nat) (s : σ) (threshold : Score)
    (a : α) : α × Score × List (DocId × Score) :=
  match fuel with
  | 0 => (a, threshold, [])
  | fuel + 1 =>
    if ops.toDocSetOps.doc s = TERMINATED then (a, threshold, [])
    else
      let sc := ops.score s
      if threshold < sc then
        let fired := cb a (ops.toDocSetOps.doc s) sc
        let rest := for_each_pruning_scorer ops cb fuel (ops.toDocSetOps.advance s)
          fired.2 fired.1
        (rest.1, rest.2.1, (ops.toDocSetOps.doc s, sc) :: rest.2.2)
      else
        for_each_pruning_scorer ops cb fuel (ops.toDocSetOps.advance s) threshold a

/-- Number of loop iterations the traversal performs with the given fuel: it
counts the advances taken before the first `TERMINATED` (or runs out of fuel). -/
def stop_time {σ : Type} (ops : DocSetOps σ) (fuel : Nat) (s : σ) : Nat :=
  match fuel with
  | 0 => 0
  | fuel + 1 =>
    if ops.doc s = TERMINATED then 0 else stop_time ops fuel (ops.advance s) + 1

/-- Modelled from the spec: `DocSet::count(alive_bitset)` — "number of matched
documents present in the liveness set; implemented by full traversal, filtering
each visited document against the set" (spec §4.1). The default implementation
lives in the repository's `DocSet` trait, outside the provided sources. -/
def docset_count {σ : Type} (ops : DocSetOps σ) (alive : DocId → Bool) (fuel : Nat)
    (s : σ) : Nat :=
  match fuel with
  | 0 => 0
  | fuel + 1 =>
    if ops.doc s = TERMINATED then 0
    else (if alive (ops.doc s) then 1 else 0) + docset_count ops alive fuel (ops.advance s)

/-- Modelled from the spec: `DocSet::count_including_deleted()` — "number of
matched documents with no filtering; a full traversal counting every visited
document" (spec §4.1); also outside the provided sources. -/
def count_including_deleted {σ : Type} (ops : DocSetOps σ) (fuel : Nat) (s : σ) : Nat :=
  match fuel with
  | 0 => 0
  | fuel + 1 =>
    if ops.doc s = TERMINATED then 0
    else count_including_deleted ops fuel (ops.advance s) + 1

/-- Modelled from the spec: the per-segment handle (`SegmentReader`). The only
capability this layer reads from it is the optional liveness-set membership
test (`alive_bitset`); the type itself is outside the provided sources. -/
structure SegmentReader where
  alive_bitset : Option (DocId → Bool)

/-- The `Weight` trait: its one required capability used by the default methods
is the scorer factory `scorer(reader, boost)`, which may fail (`crate::Result`,
error carrier `ε`). A returned `Box<dyn Scorer>` is the pair of an operations
record and a cursor state. -/
structure Weight (σ ε : Type) where
  scorer : SegmentReader → Score → Except ε (ScorerOps σ × σ)

/-- `Weight::count` (src/query/weight.rs:70-77): build a scorer with boost 1.0;
with a liveness set return the filtered count, else the unfiltered count. -/
def Weight.count {σ ε : Type} (w : Weight σ ε) (reader : SegmentReader) (fuel : Nat) :
    Except ε Nat :=
  match w.scorer reader 1 with
  | .error e => .error e
  | .ok (ops, s) =>
    match reader.alive_bitset with
    | some alive => .ok (docset_count ops.toDocSetOps alive fuel s)
    | none => .ok (count_including_deleted ops.toDocSetOps fuel s)

/-- `Weight::for_each` (src/query/weight.rs:81-89): build a scorer with boost
1.0 and run `for_each_scorer` on it. -/
def Weight.for_each {σ ε : Type} (w : Weight σ ε) (reader : SegmentReader) (fuel : Nat) :
    Except ε (List (DocId × Score)) :=
  match w.scorer reader 1 with
  | .error e => .error e
  | .ok (ops, s) => .ok (for_each_scorer ops fuel s)

/-- `Weight::for_each_no_score` (src/query/weight.rs:93-101): build a scorer
with boost 1.0 and run `for_each_docset` on it. -/
def Weight.for_each_no_score {σ ε : Type} (w : Weight σ ε) (reader : SegmentReader)
    (fuel : Nat) : Except ε (List DocId) :=
  match w.scorer reader 1 with
  | .error e => .error e
  | .ok (ops, s) => .ok (for_each_docset ops.toDocSetOps fuel s)

/-- `Weight::for_each_pruning` (src/query/weight.rs:113-122): build a scorer
with boost 1.0 and run `for_each_pruning_scorer` on it. -/
def Weight.for_each_pruning {σ ε α : Type} (w : Weight σ ε) (threshold : Score)
    (reader : SegmentReader) (cb : α → DocId → Score → α × Score) (fuel : Nat)
    (a : α) : Except ε (α × Score × List (DocId × Score)) :=
  match w.scorer reader 1 with
  | .error e => .error e
  | .ok (ops, s) => .ok (for_each_pruning_scorer ops cb fuel s threshold a)

/-- The pruning rule exactly as the spec states it (§4.2c), over an explicit
list of (document, score) matches: for each match in order, if
`score > threshold` fire the callback and replace the threshold with its
return value, otherwise skip; never stop early. Written from the spec's words,
to be compared with `for_each_pruning_scorer` from the source. -/
def prune_spec {α : Type} (cb : α → DocId → Score → α × Score) :
    List (DocId × Score) → Score → α → α × Score × List (DocId × Score)
  | [], threshold, a => (a, threshold, [])
  | (d, sc) :: rest, threshold, a =>
    if threshold < sc then
      let fired := cb a d sc
      let r := prune_spec cb rest fired.2 fired.1
      (r.1, r.2.1, (d, sc) :: r.2.2)
    else prune_spec cb rest threshold a

/-- Replacing the score function of a scorer factory's cursors while keeping
its `DocSet` part: used to state that the score-free paths are independent of
how (or whether) scores can be computed. -/
def Weight.with_score {σ ε : Type} (w : Weight σ ε) (f : σ → Score) : Weight σ ε where
  scorer reader boost :=
    (w.scorer reader boost).map (fun p => (⟨p.1.toDocSetOps, f⟩, p.2))

/-- A reference cursor backed by a sorted list of (document, score) matches:
`doc` is the head document (sentinel once exhausted), `advance` drops the head,
`score` reports the head score (an arbitrary value once exhausted, where the
contract forbids querying it). -/
def list_cursor : ScorerOps (List (DocId × Score)) where
  doc s := match s with | [] => TERMINATED | (d, _) :: _ => d
  advance s := s.tail
  score s := match s with | [] => 0 | (_, sc) :: _ => sc

/-- The rational 1/2, as a literal the kernel evaluates directly. -/
def half : Score := ⟨1, 2, by decide, Nat.coprime_one_left 2⟩

/-- The rational 3/2, as a literal the kernel evaluates directly. -/
def threeHalves : Score := ⟨3, 2, by decide, by decide⟩

/-- The spec's running example: documents [3, 7, 9] with scores
[1.0, 2.0, 0.5]. -/
def example_matches : List (DocId × Score) := [(3, 1), (7, 2), (9, half)]

/-- A weight whose scorer factory always succeeds with the example cursor. -/
def example_weight : Weight (List (DocId × Score)) Unit where
  scorer _ _ := .ok (list_cursor, example_matches)

/-- A segment reader whose liveness set marks document 7 as deleted. -/
def example_reader : SegmentReader where
  alive_bitset := some (fun d => d != 7)

/-- A segment reader exposing no liveness set. -/
def example_reader_all : SegmentReader where
  alive_bitset := none

/-- A score function that reports a junk value (1 instead of 0) on the
exhausted cursor state, where the contract forbids querying it, and agrees
with `list_cursor.score` everywhere else. -/
def poisoned_score : List (DocId × Score) → Score :=
  fun s => match s with | [] => 1 | (_, sc) :: _ => sc

/-- The spec's pruning-example callback: return `max(current_threshold, score)`,
tracking the threshold as the callback's own state. -/
def max_callback : Score → DocId → Score → Score × Score :=
  fun t _ sc => (max t sc, max t sc)

/-! ### Structure of the traversals: spine lemmas -/

theorem stop_time_le {σ : Type} (ops : DocSetOps σ) :
    ∀ (fuel : Nat) (s : σ), stop_time ops fuel s ≤ fuel := by
  intro fuel
  induction fuel with
  | zero => intro s; simp [stop_time]
  | succ fuel ih =>
    intro s
    by_cases h : ops.doc s = TERMINATED
    · simp [stop_time, h]
    · simp only [stop_time, h, if_neg, ite_false]
      exact Nat.succ_le_succ (ih _)

theorem docAt_stop_time {σ : Type} (ops : DocSetOps σ) :
    ∀ (fuel : Nat) (s : σ), ops.docAt s fuel = TERMINATED →
      ops.docAt s (stop_time ops fuel s) = TERMINATED := by
  intro fuel
  induction fuel with
  | zero => intro s h; simpa [stop_time] using h
  | succ fuel ih =>
    intro s h
    by_cases h0 : ops.doc s = TERMINATED
    · simp [stop_time, h0]
    · have h' : ops.docAt (ops.advance s) fuel = TERMINATED := by
        simpa using h
      have := ih (ops.advance s) h'
      simpa [stop_time, h0] using this

theorem docAt_ne_of_lt_stop_time {σ : Type} (ops : DocSetOps σ) :
    ∀ (fuel : Nat) (s : σ) (i : Nat), i < stop_time ops fuel s →
      ops.docAt s i ≠ TERMINATED := by
  intro fuel
  induction fuel with
  | zero => intro s i hi; simp [stop_time] at hi
  | succ fuel ih =>
    intro s i hi
    by_cases h0 : ops.doc s = TERMINATED
    · simp [stop_time, h0] at hi
    · simp only [stop_time, h0, ite_false] at hi
      match i with
      | 0 => simpa using h0
      | i + 1 =>
        have := ih (ops.advance s) i (Nat.lt_of_succ_lt_succ hi)
        simpa using this

theorem stop_time_stable {σ : Type} (ops : DocSetOps σ) :
    ∀ (fuel fuel' : Nat) (s : σ), fuel ≤ fuel' → ops.docAt s fuel = TERMINATED →
      stop_time ops fuel' s = stop_time ops fuel s := by
  intro fuel
  induction fuel with
  | zero =>
    intro fuel' s _ h
    have h0 : ops.doc s = TERMINATED := by simpa using h
    cases fuel' with
    | zero => rfl
    | succ fuel' => simp [stop_time, h0]
  | succ fuel ih =>
    intro fuel' s hle h
    cases fuel' with
    | zero => exact absurd hle (by omega)
    | succ fuel' =>
      by_cases h0 : ops.doc s = TERMINATED
      · simp [stop_time, h0]
      · have h' : ops.docAt (ops.advance s) fuel = TERMINATED := by simpa using h
        have := ih fuel' (ops.advance s) (Nat.le_of_succ_le_succ hle) h'
        simp [stop_time, h0, this]

theorem for_each_scorer_spine {σ : Type} (ops : ScorerOps σ) :
    ∀ (fuel : Nat) (s : σ),
      for_each_scorer ops fuel s =
        (List.range (stop_time ops.toDocSetOps fuel s)).map
          (fun i => (ops.docAt s i, ops.scoreAt s i)) := by
  intro fuel
  induction fuel with
  | zero => intro s; simp [for_each_scorer, stop_time]
  | succ fuel ih =>
    intro s
    by_cases h0 : ops.toDocSetOps.doc s = TERMINATED
    · simp [for_each_scorer, stop_time, h0]
    · simp only [for_each_scorer, stop_time, h0, ite_false]
      rw [ih, List.range_succ_eq_map, List.map_cons, List.map_map]
      refine congrArg₂ _ rfl (congrArg₂ _ ?_ rfl)
      funext i
      simp [Function.comp]

theorem for_each_docset_spine {σ : Type} (ops : DocSetOps σ) :
    ∀ (fuel : Nat) (s : σ),
      for_each_docset ops fuel s =
        (List.range (stop_time ops fuel s)).map (fun i => ops.docAt s i) := by
  intro fuel
  induction fuel with
  | zero => intro s; simp [for_each_docset, stop_time]
  | succ fuel ih =>
    intro s
    by_cases h0 : ops.doc s = TERMINATED
    · simp [for_each_docset, stop_time, h0]
    · simp only [for_each_docset, stop_time, h0, ite_false]
      rw [ih, List.range_succ_eq_map, List.map_cons, List.map_map]
      refine congrArg₂ _ (by simp) (congrArg₂ _ ?_ rfl)
      funext i
      simp [Function.comp]

theorem for_each_pruning_scorer_spine {σ α : Type} (ops : ScorerOps σ)
    (cb : α → DocId → Score → α × Score) :
    ∀ (fuel : Nat) (s : σ) (threshold : Score) (a : α),
      for_each_pruning_scorer ops cb fuel s threshold a =
        prune_spec cb (for_each_scorer ops fuel s) threshold a := by
  intro fuel
  induction fuel with
  | zero => intro s threshold a; simp [for_each_pruning_scorer, for_each_scorer, prune_spec]
  | succ fuel ih =>
    intro s threshold a
    by_cases h0 : ops.toDocSetOps.doc s = TERMINATED
    · simp [for_each_pruning_scorer, for_each_scorer, prune_spec, h0]
    · simp only [for_each_pruning_scorer, for_each_scorer, h0, ite_false, prune_spec]
      by_cases hth : threshold < ops.score s
      · simp only [hth, ite_true]
        rw [ih]
      · simp only [hth, ite_false]
        exact ih _ _ _

/-! ### The reference cursor satisfies the contract -/

theorem list_cursor_iterate_advance :
    ∀ (n : Nat) (l : List (DocId × Score)),
      list_cursor.toDocSetOps.advance^[n] l = l.drop n := by
  intro n
  induction n with
  | zero => intro l; simp
  | succ n ih =>
    intro l
    rw [Function.iterate_succ_apply, ih]
    show (l.tail).drop n = l.drop (n + 1)
    rw [← List.tail_drop]
    cases l with
    | nil => simp
    | cons x xs => simp [List.tail_drop]

theorem list_cursor_docAt (l : List (DocId × Score)) (n : Nat) :
    list_cursor.docAt l n =
      match l.drop n with | [] => TERMINATED | (d, _) :: _ => d := by
  simp [ScorerOps.docAt, DocSetOps.docAt, list_cursor_iterate_advance]
  rfl

theorem list_cursor_docAt_of_nil {l : List (DocId × Score)} {n : Nat}
    (h : l.drop n = []) : list_cursor.toDocSetOps.docAt l n = TERMINATED := by
  rw [show list_cursor.toDocSetOps.docAt l n = list_cursor.docAt l n from rfl,
    list_cursor_docAt, h]

theorem list_cursor_docAt_of_cons {l rest : List (DocId × Score)} {n : Nat}
    {d : DocId} {sc : Score} (h : l.drop n = (d, sc) :: rest) :
    list_cursor.toDocSetOps.docAt l n = d := by
  rw [show list_cursor.toDocSetOps.docAt l n = list_cursor.docAt l n from rfl,
    list_cursor_docAt, h]

theorem list_cursor_mem_of_drop_cons {l rest : List (DocId × Score)} {n : Nat}
    {d : DocId} {sc : Score} (h : l.drop n = (d, sc) :: rest) :
    d ∈ l.map Prod.fst := by
  have hm : d ∈ (l.drop n).map Prod.fst := by rw [h]; simp
  rw [List.map_drop] at hm
  exact List.mem_of_mem_drop hm

theorem list_cursor_contract (l : List (DocId × Score))
    (hsorted : (l.map Prod.fst).Pairwise (· < ·))
    (hreal : ∀ d ∈ l.map Prod.fst, d < TERMINATED) :
    CursorContract list_cursor.toDocSetOps l := by
  constructor
  · intro n hne
    rcases hd : l.drop n with _ | ⟨⟨d, sc⟩, rest⟩
    · exact absurd (list_cursor_docAt_of_nil hd) hne
    · have hdrop1 : l.drop (n + 1) = rest := by
        rw [← List.tail_drop, hd]
        rfl
      rw [list_cursor_docAt_of_cons hd]
      rcases hr : rest with _ | ⟨⟨d2, sc2⟩, rest2⟩
      · rw [list_cursor_docAt_of_nil (hr ▸ hdrop1)]
        exact hreal d (list_cursor_mem_of_drop_cons hd)
      · rw [list_cursor_docAt_of_cons (hr ▸ hdrop1)]
        have hpw : ((l.drop n).map Prod.fst).Pairwise (· < ·) := by
          rw [List.map_drop]
          exact hsorted.sublist ((l.map Prod.fst).drop_sublist n)
        rw [hd, hr] at hpw
        simp only [List.map_cons] at hpw
        exact (List.pairwise_cons.mp hpw).1 d2 (by simp)
  · intro n
    rcases hd : l.drop n with _ | ⟨⟨d, sc⟩, rest⟩
    · rw [list_cursor_docAt_of_nil hd]
    · rw [list_cursor_docAt_of_cons hd]
      exact le_of_lt (hreal d (list_cursor_mem_of_drop_cons hd))
  · exact ⟨l.length, list_cursor_docAt_of_nil (by simp)⟩
  · intro n hn
    rcases hd : l.drop n with _ | ⟨⟨d, sc⟩, rest⟩
    · refine list_cursor_docAt_of_nil ?_
      rw [← List.tail_drop, hd]
      rfl
    · rw [list_cursor_docAt_of_cons hd] at hn
      exact absurd hn (Nat.ne_of_lt (hreal d (list_cursor_mem_of_drop_cons hd)))

/-! ### Strict monotonicity of the visited documents under the contract -/

theorem docAt_strict_mono {σ : Type} {ops : DocSetOps σ} {s : σ}
    (hc : CursorContract ops s) {k : Nat}
    (hk : ∀ i, i < k → ops.docAt s i ≠ TERMINATED) :
    ∀ j, j ≤ k → ∀ i, i < j → ops.docAt s i < ops.docAt s j := by
  intro j
  induction j with
  | zero => intro _ i hi; omega
  | succ j ih =>
    intro hj i hi
    have hjne : ops.docAt s j ≠ TERMINATED := hk j (by omega)
    have hstep : ops.docAt s j < ops.docAt s (j + 1) := hc.increasing j hjne
    rcases Nat.lt_or_ge i j with hij | hij
    · exact lt_trans (ih (by omega) i hij) hstep
    · have : i = j := by omega
      subst this
      exact hstep

/-! ### Counting lemmas (spec-modelled `DocSet` counts versus the trace) -/

theorem docset_count_eq_countP {σ : Type} (ops : DocSetOps σ) (alive : DocId → Bool) :
    ∀ (fuel : Nat) (s : σ),
      docset_count ops alive fuel s = (for_each_docset ops fuel s).countP alive := by
  intro fuel
  induction fuel with
  | zero => intro s; simp [docset_count, for_each_docset]
  | succ fuel ih =>
    intro s
    by_cases h0 : ops.doc s = TERMINATED
    · simp [docset_count, for_each_docset, h0]
    · simp only [docset_count, for_each_docset, h0, ite_false, List.countP_cons, ih]
      omega

theorem count_including_deleted_eq_length {σ : Type} (ops : DocSetOps σ) :
    ∀ (fuel : Nat) (s : σ),
      count_including_deleted ops fuel s = (for_each_docset ops fuel s).length := by
  intro fuel
  induction fuel with
  | zero => intro s; simp [count_including_deleted, for_each_docset]
  | succ fuel ih =>
    intro s
    by_cases h0 : ops.doc s = TERMINATED
    · simp [count_including_deleted, for_each_docset, h0]
    · simp [count_including_deleted, for_each_docset, h0, ih]

@[simp] theorem ScorerOps.toDocSetOps_mk {σ : Type} (d : DocSetOps σ) (f : σ → Score) :
    (ScorerOps.mk d f).toDocSetOps = d := rfl

@[simp] theorem ScorerOps.score_mk {σ : Type} (d : DocSetOps σ) (f : σ → Score) :
    (ScorerOps.mk d f).score = f := rfl

/-- The callback trace of the pruning rule is a subsequence of the matches it
was given. -/
theorem prune_spec_trace_sublist {α : Type} (cb : α → DocId → Score → α × Score) :
    ∀ (l : List (DocId × Score)) (threshold : Score) (a : α),
      (prune_spec cb l threshold a).2.2.Sublist l := by
  intro l
  induction l with
  | nil => intro threshold a; simp [prune_spec]
  | cons p rest ih =>
    intro threshold a
    obtain ⟨d, sc⟩ := p
    by_cases hth : threshold < sc
    · simp only [prune_spec, hth, ite_true]
      exact List.Sublist.cons₂ _ (ih _ _)
    · simp only [prune_spec, hth, ite_false]
      exact List.Sublist.cons _ (ih _ _)

/-- Under the cursor contract the documents of the plain trace are strictly
increasing, for any fuel. -/
theorem for_each_scorer_map_fst_pairwise {σ : Type} (ops : ScorerOps σ) (fuel : Nat)
    (s : σ) (hc : CursorContract ops.toDocSetOps s) :
    ((for_each_scorer ops fuel s).map Prod.fst).Pairwise (· < ·) := by
  rw [for_each_scorer_spine ops fuel s, List.map_map, List.pairwise_map]
  refine (List.pairwise_lt_range _).imp_of_mem ?_
  intro i j hi hj hij
  simp only [Function.comp]
  exact docAt_strict_mono hc
    (fun i hi => docAt_ne_of_lt_stop_time ops.toDocSetOps fuel s i hi)
    j (Nat.le_of_lt (List.mem_range.mp hj)) i hij

/-! ### The claims -/

/-- Claim C1: for every scoring cursor obeying the cursor contract, the plain
scoring traversal `for_each_scorer` (and the default `Weight.for_each` built on
it) starts from the cursor's current document and invokes the callback exactly
once per matched document — the i-th invocation carrying the i-th document and
its score — in strictly increasing document order, until the cursor reaches
`TERMINATED`; every match is delivered unconditionally. -/
theorem for_each_scorer_delivers_every_match {σ : Type} (ops : ScorerOps σ)
    (s : σ) (n fuel : Nat) (hc : CursorContract ops.toDocSetOps s)
    (hterm : ops.docAt s n = TERMINATED) (hfuel : n ≤ fuel) :
    ∃ k, k ≤ n ∧ ops.docAt s k = TERMINATED ∧
      (∀ i, i < k → ops.docAt s i ≠ TERMINATED) ∧
      for_each_scorer ops fuel s =
        (List.range k).map (fun i => (ops.docAt s i, ops.scoreAt s i)) ∧
      ((for_each_scorer ops fuel s).map Prod.fst).Pairwise (· < ·) ∧
      (∀ (ε : Type) (w : Weight σ ε) (reader : SegmentReader),
        w.scorer reader 1 = Except.ok (ops, s) →
        w.for_each reader fuel = Except.ok (for_each_scorer ops fuel s)) := by
  refine ⟨stop_time ops.toDocSetOps fuel s, ?_, ?_, ?_, ?_, ?_, ?_⟩
  · rw [stop_time_stable ops.toDocSetOps n fuel s hfuel hterm]
    exact stop_time_le ops.toDocSetOps n s
  · rw [stop_time_stable ops.toDocSetOps n fuel s hfuel hterm]
    exact docAt_stop_time ops.toDocSetOps n s hterm
  · exact fun i hi => docAt_ne_of_lt_stop_time ops.toDocSetOps fuel s i hi
  · exact for_each_scorer_spine ops fuel s
  · exact for_each_scorer_map_fst_pairwise ops fuel s hc
  · intro ε w reader hw
    simp [Weight.for_each, hw]

/-- Claim C1, witnessed on the spec's example: the cursor matching [3, 7, 9]
with scores [1, 2, 1/2] delivers exactly (3,1), (7,2), (9,1/2), in order. -/
theorem for_each_scorer_delivers_every_match_witness :
    (∃ k, k ≤ 3 ∧ list_cursor.docAt example_matches k = TERMINATED ∧
      (∀ i, i < k → list_cursor.docAt example_matches i ≠ TERMINATED) ∧
      for_each_scorer list_cursor 3 example_matches =
        (List.range k).map
          (fun i => (list_cursor.docAt example_matches i,
            list_cursor.scoreAt example_matches i)) ∧
      ((for_each_scorer list_cursor 3 example_matches).map Prod.fst).Pairwise (· < ·) ∧
      (∀ (ε : Type) (w : Weight (List (DocId × Score)) ε) (reader : SegmentReader),
        w.scorer reader 1 = Except.ok (list_cursor, example_matches) →
        w.for_each reader 3 = Except.ok (for_each_scorer list_cursor 3 example_matches))) ∧
    for_each_scorer list_cursor 3 example_matches = [(3, 1), (7, 2), (9, half)] :=
  ⟨for_each_scorer_delivers_every_match list_cursor example_matches 3 3
      (list_cursor_contract example_matches (by decide) (by decide))
      (by decide) (by decide),
    by decide⟩

theorem for_each_docset_map_fst {σ : Type} (ops : ScorerOps σ) :
    ∀ (fuel : Nat) (s : σ),
      for_each_docset ops.toDocSetOps fuel s =
        (for_each_scorer ops fuel s).map Prod.fst := by
  intro fuel
  induction fuel with
  | zero => intro s; simp [for_each_docset, for_each_scorer]
  | succ fuel ih =>
    intro s
    by_cases h0 : ops.toDocSetOps.doc s = TERMINATED
    · simp [for_each_docset, for_each_scorer, h0]
    · simp [for_each_docset, for_each_scorer, h0, ih]

/-- Claim C4: the score-free traversal `for_each_docset` visits exactly the
identifier sequence of the plain scoring traversal, and the default
`Weight.for_each_no_score` is `Weight.for_each` restricted to identifiers. -/
theorem for_each_docset_eq_for_each_scorer_on_ids {σ : Type} (ops : ScorerOps σ)
    (fuel : Nat) (s : σ) :
    for_each_docset ops.toDocSetOps fuel s = (for_each_scorer ops fuel s).map Prod.fst ∧
    (∀ (ε : Type) (w : Weight σ ε) (reader : SegmentReader),
      w.for_each_no_score reader fuel =
        (w.for_each reader fuel).map (List.map Prod.fst)) := by
  constructor
  · exact for_each_docset_map_fst ops fuel s
  · intro ε w reader
    cases hw : w.scorer reader 1 with
    | error e => simp [Weight.for_each_no_score, Weight.for_each, hw, Except.map]
    | ok p =>
      have h := for_each_docset_map_fst p.1 fuel p.2
      simp [Weight.for_each_no_score, Weight.for_each, hw, Except.map, h]

/-- Claim C5: the score-free traversal never invokes `score()`: its outcome
(and that of the default `Weight.for_each_no_score`) is unchanged under any
replacement of the cursors' score function, including one that would fail if
it were ever consulted. -/
theorem for_each_no_score_independent_of_score {σ ε : Type} (w : Weight σ ε)
    (f : σ → Score) (reader : SegmentReader) (fuel : Nat) (d : DocSetOps σ)
    (g₁ g₂ : σ → Score) (s : σ) :
    (w.with_score f).for_each_no_score reader fuel = w.for_each_no_score reader fuel ∧
    for_each_docset (ScorerOps.mk d g₁).toDocSetOps fuel s =
      for_each_docset (ScorerOps.mk d g₂).toDocSetOps fuel s := by
  constructor
  · cases hw : w.scorer reader 1 with
    | error e => simp [Weight.for_each_no_score, Weight.with_score, hw, Except.map]
    | ok p => simp [Weight.for_each_no_score, Weight.with_score, hw, Except.map]
  · rfl

/-- Claim C2: for every scoring cursor obeying the cursor contract, every
initial threshold and every callback, the pruning traversal
`for_each_pruning_scorer` (and the default `Weight.for_each_pruning` built on
it) visits every matched document in increasing order to `TERMINATED` without
stopping early — its behaviour is exactly the spec's pruning rule
`prune_spec` applied to the full match list: the score is computed for each
document, the callback fires if and only if `score > threshold` (strict), each
firing replaces the threshold with the callback's return value (whatever it
is), and the cursor advances whether or not the callback fired. -/
theorem for_each_pruning_scorer_fires_above_threshold {σ α : Type}
    (ops : ScorerOps σ) (cb : α → DocId → Score → α × Score) (s : σ)
    (n fuel : Nat) (threshold : Score) (a : α)
    (hc : CursorContract ops.toDocSetOps s)
    (hterm : ops.docAt s n = TERMINATED) (hfuel : n ≤ fuel) :
    ∃ k, k ≤ n ∧ ops.docAt s k = TERMINATED ∧
      (∀ i, i < k → ops.docAt s i ≠ TERMINATED) ∧
      for_each_pruning_scorer ops cb fuel s threshold a =
        prune_spec cb
          ((List.range k).map (fun i => (ops.docAt s i, ops.scoreAt s i)))
          threshold a ∧
      ((for_each_pruning_scorer ops cb fuel s threshold a).2.2.map Prod.fst).Pairwise
        (· < ·) ∧
      (∀ (ε : Type) (w : Weight σ ε) (reader : SegmentReader),
        w.scorer reader 1 = Except.ok (ops, s) →
        w.for_each_pruning threshold reader cb fuel a =
          Except.ok (for_each_pruning_scorer ops cb fuel s threshold a)) := by
  refine ⟨stop_time ops.toDocSetOps fuel s, ?_, ?_, ?_, ?_, ?_, ?_⟩
  · rw [stop_time_stable ops.toDocSetOps n fuel s hfuel hterm]
    exact stop_time_le ops.toDocSetOps n s
  · rw [stop_time_stable ops.toDocSetOps n fuel s hfuel hterm]
    exact docAt_stop_time ops.toDocSetOps n s hterm
  · exact fun i hi => docAt_ne_of_lt_stop_time ops.toDocSetOps fuel s i hi
  · rw [for_each_pruning_scorer_spine ops cb fuel s threshold a,
      for_each_scorer_spine ops fuel s]
  · rw [for_each_pruning_scorer_spine ops cb fuel s threshold a]
    exact List.Pairwise.sublist
      ((prune_spec_trace_sublist cb _ threshold a).map Prod.fst)
      (for_each_scorer_map_fst_pairwise ops fuel s hc)
  · intro ε w reader hw
    simp [Weight.for_each_pruning, hw]

/-- Claim C2, witnessed on the spec's example: with matches [3, 7, 9], scores
[1, 2, 1/2], initial threshold 3/2 and a callback returning
`max(current_threshold, score)`, the callback fires exactly once, on document
7, raising the threshold to 2. -/
theorem for_each_pruning_scorer_fires_above_threshold_witness :
    (∃ k, k ≤ 3 ∧ list_cursor.docAt example_matches k = TERMINATED ∧
      (∀ i, i < k → list_cursor.docAt example_matches i ≠ TERMINATED) ∧
      for_each_pruning_scorer list_cursor max_callback 3 example_matches
          threeHalves threeHalves =
        prune_spec max_callback
          ((List.range k).map
            (fun i => (list_cursor.docAt example_matches i,
              list_cursor.scoreAt example_matches i)))
          threeHalves threeHalves ∧
      ((for_each_pruning_scorer list_cursor max_callback 3 example_matches
          threeHalves threeHalves).2.2.map Prod.fst).Pairwise (· < ·) ∧
      (∀ (ε : Type) (w : Weight (List (DocId × Score)) ε) (reader : SegmentReader),
        w.scorer reader 1 = Except.ok (list_cursor, example_matches) →
        w.for_each_pruning threeHalves reader max_callback 3 threeHalves =
          Except.ok (for_each_pruning_scorer list_cursor max_callback 3
            example_matches threeHalves threeHalves))) ∧
    for_each_pruning_scorer list_cursor max_callback 3 example_matches
        threeHalves threeHalves = (2, 2, [(7, 2)]) :=
  ⟨for_each_pruning_scorer_fires_above_threshold list_cursor max_callback
      example_matches 3 3 threeHalves threeHalves
      (list_cursor_contract example_matches (by decide) (by decide))
      (by decide) (by decide),
    by decide⟩

/-- Claim C3: each default method of `Weight` — `count`, `for_each`,
`for_each_no_score`, `for_each_pruning` — fails exactly when scorer
construction fails (same error, checked before anything else runs, so an
erroneous call delivers no callback invocation at all), and succeeds whenever
a scorer is constructed: the traversal itself never fails. -/
theorem weight_defaults_fail_iff_scorer_fails {σ ε α : Type} (w : Weight σ ε)
    (reader : SegmentReader) (fuel : Nat) (threshold : Score)
    (cb : α → DocId → Score → α × Score) (a : α) (e : ε) :
    ((w.count reader fuel).isOk = (w.scorer reader 1).isOk ∧
     (w.for_each reader fuel).isOk = (w.scorer reader 1).isOk ∧
     (w.for_each_no_score reader fuel).isOk = (w.scorer reader 1).isOk ∧
     (w.for_each_pruning threshold reader cb fuel a).isOk =
       (w.scorer reader 1).isOk) ∧
    ((w.count reader fuel = Except.error e ↔ w.scorer reader 1 = Except.error e) ∧
     (w.for_each reader fuel = Except.error e ↔
       w.scorer reader 1 = Except.error e) ∧
     (w.for_each_no_score reader fuel = Except.error e ↔
       w.scorer reader 1 = Except.error e) ∧
     (w.for_each_pruning threshold reader cb fuel a = Except.error e ↔
       w.scorer reader 1 = Except.error e)) := by
  rcases hw : w.scorer reader 1 with e' | p <;>
    rcases hb : reader.alive_bitset with _ | alive <;>
      simp [Weight.count, Weight.for_each, Weight.for_each_no_score,
        Weight.for_each_pruning, hw, hb, Except.isOk, Except.toBool]

/-- Claim C6: the default `Weight.count` builds a scorer with boost 1.0 and
returns the filtered count over the liveness set when the segment exposes one
(7 deleted among [3, 7, 9] gives 2), and otherwise the unfiltered count of all
matched documents (3 for the same cursor). -/
theorem weight_count_counts_live_matches {σ ε : Type} (w : Weight σ ε)
    (reader : SegmentReader) (ops : ScorerOps σ) (s : σ) (n fuel : Nat)
    (hw : w.scorer reader 1 = Except.ok (ops, s))
    (hc : CursorContract ops.toDocSetOps s)
    (hterm : ops.docAt s n = TERMINATED) (hfuel : n ≤ fuel) :
    ∃ k, k ≤ n ∧ ops.docAt s k = TERMINATED ∧
      (∀ i, i < k → ops.docAt s i ≠ TERMINATED) ∧
      (∀ alive, reader.alive_bitset = some alive →
        w.count reader fuel =
          Except.ok
            (((List.range k).map (fun i => ops.docAt s i)).countP alive)) ∧
      (reader.alive_bitset = none → w.count reader fuel = Except.ok k) := by
  refine ⟨stop_time ops.toDocSetOps fuel s, ?_, ?_, ?_, ?_, ?_⟩
  · rw [stop_time_stable ops.toDocSetOps n fuel s hfuel hterm]
    exact stop_time_le ops.toDocSetOps n s
  · rw [stop_time_stable ops.toDocSetOps n fuel s hfuel hterm]
    exact docAt_stop_time ops.toDocSetOps n s hterm
  · exact fun i hi => docAt_ne_of_lt_stop_time ops.toDocSetOps fuel s i hi
  · intro alive hb
    simp only [Weight.count, hw, hb]
    rw [docset_count_eq_countP ops.toDocSetOps alive fuel s,
      for_each_docset_spine ops.toDocSetOps fuel s]
    rfl
  · intro hb
    simp only [Weight.count, hw, hb]
    rw [count_including_deleted_eq_length ops.toDocSetOps fuel s,
      for_each_docset_spine ops.toDocSetOps fuel s]
    simp

/-- Claim C6, witnessed on the spec's example: matches [3, 7, 9] with 7 marked
deleted give `count` 2 with the liveness set and 3 without one. -/
theorem weight_count_counts_live_matches_witness :
    (∃ k, k ≤ 3 ∧ list_cursor.docAt example_matches k = TERMINATED ∧
      (∀ i, i < k → list_cursor.docAt example_matches i ≠ TERMINATED) ∧
      (∀ alive, example_reader.alive_bitset = some alive →
        example_weight.count example_reader 3 =
          Except.ok
            (((List.range k).map
              (fun i => list_cursor.docAt example_matches i)).countP alive)) ∧
      (example_reader.alive_bitset = none →
        example_weight.count example_reader 3 = Except.ok k)) ∧
    example_weight.count example_reader 3 = Except.ok 2 ∧
    example_weight.count example_reader_all 3 = Except.ok 3 :=
  ⟨weight_count_counts_live_matches example_weight example_reader list_cursor
      example_matches 3 3 rfl
      (list_cursor_contract example_matches (by decide) (by decide))
      (by decide) (by decide),
    rfl, rfl⟩

/-- Claim C7: under the cursor contract — strictly increasing identifiers,
`TERMINATED` reached after finitely many steps and sticky — each of the three
traversal loops terminates: from some finite iteration bound on, more fuel
changes nothing. -/
theorem traversal_loops_terminate {σ α : Type} (ops : ScorerOps σ) (s : σ)
    (cb : α → DocId → Score → α × Score) (threshold : Score) (a : α)
    (hc : CursorContract ops.toDocSetOps s) :
    ∃ n, ops.docAt s n = TERMINATED ∧
      ∀ fuel, n ≤ fuel →
        for_each_scorer ops fuel s = for_each_scorer ops n s ∧
        for_each_docset ops.toDocSetOps fuel s =
          for_each_docset ops.toDocSetOps n s ∧
        for_each_pruning_scorer ops cb fuel s threshold a =
          for_each_pruning_scorer ops cb n s threshold a := by
  obtain ⟨n, hn⟩ := hc.reaches
  refine ⟨n, hn, ?_⟩
  intro fuel hf
  have hst := stop_time_stable ops.toDocSetOps n fuel s hf hn
  have hsc : for_each_scorer ops fuel s = for_each_scorer ops n s := by
    rw [for_each_scorer_spine ops fuel s, for_each_scorer_spine ops n s, hst]
  refine ⟨hsc, ?_, ?_⟩
  · rw [for_each_docset_spine ops.toDocSetOps fuel s,
      for_each_docset_spine ops.toDocSetOps n s, hst]
  · rw [for_each_pruning_scorer_spine ops cb fuel s threshold a,
      for_each_pruning_scorer_spine ops cb n s threshold a, hsc]

/-- Claim C7, witnessed on the spec's example cursor. -/
theorem traversal_loops_terminate_witness :
    ∃ n, list_cursor.docAt example_matches n = TERMINATED ∧
      ∀ fuel, n ≤ fuel →
        for_each_scorer list_cursor fuel example_matches =
          for_each_scorer list_cursor n example_matches ∧
        for_each_docset list_cursor.toDocSetOps fuel example_matches =
          for_each_docset list_cursor.toDocSetOps n example_matches ∧
        for_each_pruning_scorer list_cursor max_callback fuel example_matches
            threeHalves threeHalves =
          for_each_pruning_scorer list_cursor max_callback n example_matches
            threeHalves threeHalves :=
  traversal_loops_terminate list_cursor example_matches max_callback
    threeHalves threeHalves
    (list_cursor_contract example_matches (by decide) (by decide))

/-- Claim C8: the plain and the pruning traversal query `score()` only while
the current document is a real (non-sentinel) match: their outcome is
unchanged under any two score functions that agree on every cursor state whose
current document is not `TERMINATED`. -/
theorem score_queried_only_at_real_documents {σ α : Type} (d : DocSetOps σ)
    (f g : σ → Score) (cb : α → DocId → Score → α × Score) (fuel : Nat) (s : σ)
    (threshold : Score) (a : α)
    (h : ∀ t, d.doc t ≠ TERMINATED → f t = g t) :
    for_each_scorer (ScorerOps.mk d f) fuel s =
      for_each_scorer (ScorerOps.mk d g) fuel s ∧
    for_each_pruning_scorer (ScorerOps.mk d f) cb fuel s threshold a =
      for_each_pruning_scorer (ScorerOps.mk d g) cb fuel s threshold a := by
  constructor
  · induction fuel generalizing s with
    | zero => rfl
    | succ fuel ih =>
      by_cases h0 : d.doc s = TERMINATED
      · simp [for_each_scorer, h0]
      · simp only [for_each_scorer, ScorerOps.toDocSetOps_mk, ScorerOps.score_mk,
          h0, ite_false]
        rw [h s h0, ih]
  · induction fuel generalizing s threshold a with
    | zero => rfl
    | succ fuel ih =>
      by_cases h0 : d.doc s = TERMINATED
      · simp [for_each_pruning_scorer, h0]
      · simp only [for_each_pruning_scorer, ScorerOps.toDocSetOps_mk,
          ScorerOps.score_mk, h0, ite_false]
        rw [h s h0]
        by_cases hth : threshold < g s
        · simp only [hth, ite_true]
          rw [ih]
        · simp only [hth, ite_false]
          exact ih _ _ _

/-- Claim C8, witnessed: a score function reporting a junk value on the
exhausted state changes nothing about either traversal of the example
cursor. -/
theorem score_queried_only_at_real_documents_witness :
    (for_each_scorer (ScorerOps.mk list_cursor.toDocSetOps list_cursor.score) 3
        example_matches =
      for_each_scorer (ScorerOps.mk list_cursor.toDocSetOps poisoned_score) 3
        example_matches ∧
    for_each_pruning_scorer (ScorerOps.mk list_cursor.toDocSetOps list_cursor.score)
        max_callback 3 example_matches threeHalves threeHalves =
      for_each_pruning_scorer (ScorerOps.mk list_cursor.toDocSetOps poisoned_score)
        max_callback 3 example_matches threeHalves threeHalves) ∧
    for_each_scorer (ScorerOps.mk list_cursor.toDocSetOps poisoned_score) 3
        example_matches = [(3, 1), (7, 2), (9, half)] :=
  ⟨score_queried_only_at_real_documents list_cursor.toDocSetOps
      list_cursor.score poisoned_score max_callback 3 example_matches
      threeHalves threeHalves
      (fun t ht =>
        match t with
        | [] => absurd rfl ht
        | (_, _) :: _ => rfl),
    by decide⟩

/-- Claim C9: the default `Weight.for_each`, `Weight.for_each_no_score` and
`Weight.for_each_pruning` each construct their cursor with boost exactly 1.0
and run, respectively, the plain scoring traversal, the score-free traversal
and the pruning traversal on it. -/
theorem weight_defaults_compose_boost_one {σ ε α : Type} (w : Weight σ ε)
    (reader : SegmentReader) (fuel : Nat) (threshold : Score)
    (cb : α → DocId → Score → α × Score) (a : α) :
    w.for_each reader fuel =
      (w.scorer reader 1).map (fun p => for_each_scorer p.1 fuel p.2) ∧
    w.for_each_no_score reader fuel =
      (w.scorer reader 1).map (fun p => for_each_docset p.1.toDocSetOps fuel p.2) ∧
    w.for_each_pruning threshold reader cb fuel a =
      (w.scorer reader 1).map
        (fun p => for_each_pruning_scorer p.1 cb fuel p.2 threshold a) := by
  rcases hw : w.scorer reader 1 with e | p <;>
    simp [Weight.for_each, Weight.for_each_no_score, Weight.for_each_pruning,
      hw, Except.map]

/-- Claim C10: a cursor already at `TERMINATED` produces zero callback
invocations from each of the three traversal loops, leaving the pruning state
and threshold untouched, and the default methods built on such a cursor
succeed with zero invocations. -/
theorem traversals_empty_on_terminated {σ ε α : Type} (ops : ScorerOps σ)
    (s : σ) (cb : α → DocId → Score → α × Score) (threshold : Score) (a : α)
    (fuel : Nat) (h : ops.toDocSetOps.doc s = TERMINATED) :
    for_each_scorer ops fuel s = [] ∧
    for_each_docset ops.toDocSetOps fuel s = [] ∧
    for_each_pruning_scorer ops cb fuel s threshold a = (a, threshold, []) ∧
    (∀ (w : Weight σ ε) (reader : SegmentReader),
      w.scorer reader 1 = Except.ok (ops, s) →
      w.for_each reader fuel = Except.ok [] ∧
      w.for_each_no_score reader fuel = Except.ok [] ∧
      w.for_each_pruning threshold reader cb fuel a =
        Except.ok (a, threshold, [])) := by
  have h1 : for_each_scorer ops fuel s = [] := by
    cases fuel <;> simp [for_each_scorer, h]
  have h2 : for_each_docset ops.toDocSetOps fuel s = [] := by
    cases fuel <;> simp [for_each_docset, h]
  have h3 : for_each_pruning_scorer ops cb fuel s threshold a = (a, threshold, []) := by
    cases fuel <;> simp [for_each_pruning_scorer, h]
  refine ⟨h1, h2, h3, ?_⟩
  intro w reader hw
  refine ⟨?_, ?_, ?_⟩ <;>
    simp [Weight.for_each, Weight.for_each_no_score, Weight.for_each_pruning,
      hw, h1, h2, h3]

/-- Claim C10, witnessed on the exhausted (empty) cursor. -/
theorem traversals_empty_on_terminated_witness :
    for_each_scorer list_cursor 5 [] = [] ∧
    for_each_docset list_cursor.toDocSetOps 5 [] = [] ∧
    for_each_pruning_scorer list_cursor max_callback 5 [] threeHalves
      threeHalves = (threeHalves, threeHalves, []) ∧
    (∀ (w : Weight (List (DocId × Score)) Unit) (reader : SegmentReader),
      w.scorer reader 1 = Except.ok (list_cursor, []) →
      w.for_each reader 5 = Except.ok [] ∧
      w.for_each_no_score reader 5 = Except.ok [] ∧
      w.for_each_pruning threeHalves reader max_callback 5 threeHalves =
        Except.ok (threeHalves, threeHalves, [])) :=
  traversals_empty_on_terminated list_cursor [] max_callback threeHalves
    threeHalves 5 rfl

end Tantivy
